import Mathlib

/-!
Scoring core of `worker.js`.

A shallow embedding of the two pure functions of the worker,
`calculateDepressionScore` and `getScoreInterpretation`, together with the
library operations they call (`String.prototype.match` on a global,
case-insensitive regular expression of literal alternatives, `Math.round`,
`Math.max`, `Math.min`).

Numbers are modelled by `ℚ` with exact arithmetic: every finite JavaScript
number is a rational, and the statements below are the exact-arithmetic
reading of the code (no binary rounding error, no `NaN`, no infinities).
On the reals `Math.round x` is `⌊x + 1/2⌋`, the nearest integer with a tie
going towards `+∞`.

The function `calculateDepressionScore` is embedded in two parts: `rawScore`
is its body up to the `return` statement and `normalize` is the returned
expression.

Texts are modelled by `String`.  The regular expressions of the source contain
only ASCII characters and carry no `u` flag, so a text character matches a
pattern character exactly when both are the same ASCII character up to the
case of the letters `a`–`z`; a character outside ASCII never matches.
-/

namespace Worker

/-- An entry of `depressionIndicators` or `positiveIndicators`: the field `regex`
holds the literal alternatives `a₁, …, aₙ` of the expression `/a₁|…|aₙ/gi`. -/
structure Indicator where
  regex : List String
  weight : ℚ

/-- The `sentiment` argument: the code reads the fields `label` and `score`
(the numeric field that the specification calls the confidence). -/
structure Sentiment where
  label : String
  score : ℚ

/-- Case folding used by a case-insensitive expression without the `u` flag,
restricted to what matters for ASCII patterns. -/
def canonicalize (ch : Char) : Char := ch.toUpper

/-- Does the literal `pattern` match at the start of `input`, ignoring case? -/
def matchesAt : List Char → List Char → Bool
  | [], _ => true
  | _ :: _, [] => false
  | p :: ps, c :: cs => canonicalize p == canonicalize c && matchesAt ps cs

/-- The length of the first alternative, in the order written, that matches at
the start of `input`. -/
def firstAlternative : List String → List Char → Option Nat
  | [], _ => none
  | a :: rest, input =>
    if matchesAt a.data input then some a.data.length else firstAlternative rest input

/-- The scan of a global expression from the current position.  `skip` is the
number of characters of `input` still covered by the previous match.  A match
of length `n` resumes the scan `n` characters further (one character further
for an empty match). -/
def matchFrom (regex : List String) : Nat → List Char → List String
  | 0, [] => if (firstAlternative regex []).isSome then [""] else []
  | _ + 1, [] => []
  | skip + 1, _ :: cs => matchFrom regex skip cs
  | 0, c :: cs =>
    match firstAlternative regex (c :: cs) with
    | some n => String.mk ((c :: cs).take n) :: matchFrom regex (n - 1) cs
    | none => matchFrom regex 0 cs

/-- The value of `text.match(regex) || []` for a global expression: the list of all
matched substrings, left to right, empty when there is no match. -/
def textMatch (text : String) (regex : List String) : List String :=
  matchFrom regex 0 text.data

/-- The array `depressionIndicators`. -/
def depressionIndicators : List Indicator :=
  [ { regex := ["hopeless", "worthless", "emptiness", "despair"], weight := 1.5 },
    { regex := ["sad", "down", "low", "blue", "unhappy"], weight := 0.8 },
    { regex := ["tired", "exhausted", "fatigue", "no energy"], weight := 0.7 },
    { regex := ["alone", "lonely", "isolated"], weight := 0.9 },
    { regex := ["can't sleep", "insomnia", "sleeping too much"], weight := 0.6 },
    { regex := ["no interest", "don't care", "apathy"], weight := 1.2 },
    { regex := ["suicide", "death", "dying", "end it"], weight := 2.5 },
    { regex := ["guilt", "blame", "fault", "shame"], weight := 1.0 },
    { regex := ["can't concentrate", "foggy", "unfocused"], weight := 0.5 },
    { regex := ["too slow", "agitated", "restless"], weight := 0.5 } ]

/-- The array `positiveIndicators`. -/
def positiveIndicators : List Indicator :=
  [ { regex := ["happy", "joy", "grateful", "thankful"], weight := -1.0 },
    { regex := ["hopeful", "looking forward", "excited"], weight := -1.2 },
    { regex := ["accomplished", "achieved", "proud"], weight := -0.8 },
    { regex := ["energetic", "motivated", "inspired"], weight := -0.7 },
    { regex := ["connected", "supported", "loved"], weight := -0.9 } ]

/-- The body of both `forEach` callbacks: `score += matches.length * indicator.weight`. -/
def applyIndicator (text : String) (score : ℚ) (indicator : Indicator) : ℚ :=
  score + ((textMatch text indicator.regex).length : ℚ) * indicator.weight

/-- The value of the variable `score` when the `return` statement is reached. -/
def rawScore (text : String) (sentiment : Sentiment) : ℚ :=
  let score : ℚ := 12.5
  let score := if sentiment.label = "NEGATIVE" then score + sentiment.score * 5
    else score - sentiment.score * 5
  let score := depressionIndicators.foldl (applyIndicator text) score
  let score := positiveIndicators.foldl (applyIndicator text) score
  score

/-- The function `Math.round`: the nearest integer, a tie going towards `+∞`. -/
def mathRound (x : ℚ) : ℤ := ⌊x + 1 / 2⌋

/-- The expression `Math.min(Math.max(Math.round(score * 10) / 10, 0), 25)`. -/
def normalize (score : ℚ) : ℚ :=
  min (max ((mathRound (score * 10) : ℚ) / 10) 0) 25

/-- The function `calculateDepressionScore(text, sentiment, embedding)`. -/
def calculateDepressionScore {E : Type} (text : String) (sentiment : Sentiment)
    (_embedding : E) : ℚ :=
  normalize (rawScore text sentiment)

/-- The function `getScoreInterpretation(score)`. -/
def getScoreInterpretation (score : ℚ) : String :=
  if score < 5 then "Minimal or no depression indicators detected"
  else if score < 10 then "Mild depression indicators detected"
  else if score < 15 then "Moderate depression indicators detected"
  else if score < 20 then "Moderately severe depression indicators detected"
  else "Severe depression indicators detected"

/-- The number of matches of the rule `indicator` in `text`. -/
def matchCount (text : String) (indicator : Indicator) : Nat :=
  (textMatch text indicator.regex).length

/-- The sum of `matches.length * indicator.weight` over a list of rules. -/
def weightedMatches (text : String) (rules : List Indicator) : ℚ :=
  (rules.map fun r => (matchCount text r : ℚ) * r.weight).sum

/-- The sentiment contribution as the specification words it: `+5 * confidence` for
the label `NEGATIVE`, `-5 * confidence` for any other label. -/
def sentimentTerm (sentiment : Sentiment) : ℚ :=
  if sentiment.label = "NEGATIVE" then 5 * sentiment.score else -5 * sentiment.score

/-- Upper-casing of an ASCII text (`toUpperCase` changes only the letters `a`–`z` there). -/
def asciiUpperCase (text : String) : String := String.mk (text.data.map Char.toUpper)

/-- Lower-casing of an ASCII text (`toLowerCase` changes only the letters `A`–`Z` there). -/
def asciiLowerCase (text : String) : String := String.mk (text.data.map Char.toLower)

/-- A text all of whose characters are ASCII. -/
def IsAscii (text : String) : Prop := ∀ c ∈ text.data, c.toNat < 128

/-- All occurrences of the alternatives of `regex` in `input`: the pairs of a position
(counted from `pos`) and an alternative that matches there, by increasing position. -/
def occurrencesFrom (regex : List String) : Nat → List Char → List (Nat × String)
  | pos, [] => (regex.filter fun a => matchesAt a.data []).map fun a => (pos, a)
  | pos, c :: cs =>
    ((regex.filter fun a => matchesAt a.data (c :: cs)).map fun a => (pos, a))
      ++ occurrencesFrom regex (pos + 1) cs

/-- All occurrences of the alternatives of `regex` in `text`. -/
def occurrences (text : String) (regex : List String) : List (Nat × String) :=
  occurrencesFrom regex 0 text.data

/-- No two of the listed occurrences overlap: each one ends before the next one starts. -/
def NoOverlap (occs : List (Nat × String)) : Prop :=
  occs.Pairwise fun o₁ o₂ => o₁.1 + o₁.2.data.length ≤ o₂.1

/-! ## Auxiliary facts -/

theorem foldl_applyIndicator (text : String) (rules : List Indicator) (score : ℚ) :
    rules.foldl (applyIndicator text) score = score + weightedMatches text rules := by
  induction rules generalizing score with
  | nil => simp [weightedMatches]
  | cons r rs ih =>
    simp only [List.foldl_cons, ih]
    simp [weightedMatches, applyIndicator, matchCount, add_assoc]

theorem rawScore_eq (text : String) (sentiment : Sentiment) :
    rawScore text sentiment = 12.5 + sentimentTerm sentiment
      + weightedMatches text depressionIndicators
      + weightedMatches text positiveIndicators := by
  unfold rawScore sentimentTerm
  simp only [foldl_applyIndicator]
  split <;> ring

theorem weightedMatches_congr (text₁ text₂ : String) (rules : List Indicator)
    (h : ∀ r ∈ rules, matchCount text₁ r = matchCount text₂ r) :
    weightedMatches text₁ rules = weightedMatches text₂ rules := by
  unfold weightedMatches
  congr 1
  apply List.map_congr_left
  intro r hr
  rw [h r hr]

theorem weightedMatches_le_of_nonneg (text₁ text₂ : String) (rules : List Indicator)
    (hw : ∀ r ∈ rules, 0 ≤ r.weight)
    (h : ∀ r ∈ rules, matchCount text₁ r ≤ matchCount text₂ r) :
    weightedMatches text₁ rules ≤ weightedMatches text₂ rules := by
  induction rules with
  | nil => simp [weightedMatches]
  | cons r rs ih =>
    have h1 := ih (fun x hx => hw x (List.mem_cons_of_mem _ hx))
      (fun x hx => h x (List.mem_cons_of_mem _ hx))
    have h2 : (matchCount text₁ r : ℚ) ≤ matchCount text₂ r := by
      exact_mod_cast h r (List.mem_cons_self _ _)
    have h3 := mul_le_mul_of_nonneg_right h2 (hw r (List.mem_cons_self _ _))
    unfold weightedMatches at h1 ⊢
    simp only [List.map_cons, List.sum_cons]
    exact add_le_add h3 h1

theorem weightedMatches_ge_of_nonpos (text₁ text₂ : String) (rules : List Indicator)
    (hw : ∀ r ∈ rules, r.weight ≤ 0)
    (h : ∀ r ∈ rules, matchCount text₁ r ≤ matchCount text₂ r) :
    weightedMatches text₂ rules ≤ weightedMatches text₁ rules := by
  induction rules with
  | nil => simp [weightedMatches]
  | cons r rs ih =>
    have h1 := ih (fun x hx => hw x (List.mem_cons_of_mem _ hx))
      (fun x hx => h x (List.mem_cons_of_mem _ hx))
    have h2 : (matchCount text₁ r : ℚ) ≤ matchCount text₂ r := by
      exact_mod_cast h r (List.mem_cons_self _ _)
    have h3 := mul_le_mul_of_nonpos_right h2 (hw r (List.mem_cons_self _ _))
    unfold weightedMatches at h1 ⊢
    simp only [List.map_cons, List.sum_cons]
    exact add_le_add h3 h1

theorem depression_weights_nonneg : ∀ r ∈ depressionIndicators, 0 ≤ r.weight := by
  intro r hr
  simp only [depressionIndicators, List.mem_cons, List.mem_singleton] at hr
  simp only [List.not_mem_nil, or_false] at hr
  rcases hr with h | h | h | h | h | h | h | h | h | h <;> subst h <;> norm_num

theorem positive_weights_nonpos : ∀ r ∈ positiveIndicators, r.weight ≤ 0 := by
  intro r hr
  simp only [positiveIndicators, List.mem_cons, List.mem_singleton] at hr
  simp only [List.not_mem_nil, or_false] at hr
  rcases hr with h | h | h | h | h <;> subst h <;> norm_num

theorem mathRound_mono {x y : ℚ} (h : x ≤ y) : mathRound x ≤ mathRound y :=
  Int.floor_mono (by linarith)

theorem mathRound_intCast (m : ℤ) : mathRound (m : ℚ) = m := by
  unfold mathRound
  rw [Int.floor_eq_iff]
  constructor <;> linarith

theorem normalize_nonneg (x : ℚ) : 0 ≤ normalize x := by
  unfold normalize
  exact le_min (le_max_right _ _) (by norm_num)

theorem normalize_le (x : ℚ) : normalize x ≤ 25 := by
  unfold normalize
  exact min_le_right _ _

theorem normalize_mono {x y : ℚ} (h : x ≤ y) : normalize x ≤ normalize y := by
  unfold normalize
  have h1 : mathRound (x * 10) ≤ mathRound (y * 10) := mathRound_mono (by linarith)
  have h2 : (mathRound (x * 10) : ℚ) ≤ mathRound (y * 10) := by exact_mod_cast h1
  have h3 : (mathRound (x * 10) : ℚ) / 10 ≤ (mathRound (y * 10) : ℚ) / 10 := by linarith
  exact min_le_min (max_le_max h3 le_rfl) le_rfl

theorem normalize_tenth (m : ℤ) (h0 : 0 ≤ m) (h1 : m ≤ 250) :
    normalize ((m : ℚ) / 10) = (m : ℚ) / 10 := by
  unfold normalize
  rw [show (m : ℚ) / 10 * 10 = m by ring, mathRound_intCast]
  have a0 : (0 : ℚ) ≤ m := by exact_mod_cast h0
  have a1 : (m : ℚ) ≤ 250 := by exact_mod_cast h1
  rw [max_eq_left (by linarith), min_eq_left (by linarith)]

theorem normalize_eq_tenth (x : ℚ) :
    ∃ m : ℤ, 0 ≤ m ∧ m ≤ 250 ∧ normalize x = (m : ℚ) / 10 := by
  unfold normalize
  rcases lt_or_le (mathRound (x * 10)) 0 with h | h
  · refine ⟨0, le_rfl, by norm_num, ?_⟩
    have a : (mathRound (x * 10) : ℚ) < 0 := by exact_mod_cast h
    rw [max_eq_right (by linarith), min_eq_left (by norm_num)]
    norm_num
  · have a : (0 : ℚ) ≤ mathRound (x * 10) := by exact_mod_cast h
    rcases le_or_lt (mathRound (x * 10)) 250 with k | k
    · refine ⟨mathRound (x * 10), h, k, ?_⟩
      have b : (mathRound (x * 10) : ℚ) ≤ 250 := by exact_mod_cast k
      rw [max_eq_left (by linarith), min_eq_left (by linarith)]
    · refine ⟨250, by norm_num, le_rfl, ?_⟩
      have b : (250 : ℚ) < mathRound (x * 10) := by exact_mod_cast k
      rw [max_eq_left (by linarith), min_eq_right (by linarith)]
      norm_num

theorem weightedMatches_eq_zipWith (text : String) (rules : List Indicator) :
    weightedMatches text rules
      = (List.zipWith (fun (n : ℕ) (r : Indicator) => (n : ℚ) * r.weight)
          (rules.map (matchCount text)) rules).sum := by
  induction rules with
  | nil => rfl
  | cons r rs ih =>
    unfold weightedMatches at ih ⊢
    simp only [List.map_cons, List.sum_cons, List.zipWith_cons_cons, ih]

theorem toNat_ofNat_of_lt (n : Nat) (h : n < 55296) : (Char.ofNat n).toNat = n := by
  have hv : n.isValidChar := Or.inl h
  simp only [Char.ofNat, hv, dite_true, Char.toNat, Char.ofNatAux]
  rfl

theorem canonicalize_toUpper (c : Char) : canonicalize c.toUpper = canonicalize c := by
  unfold canonicalize
  by_cases h : c.toNat ≥ 97 ∧ c.toNat ≤ 122
  · have h1 : c.toUpper = Char.ofNat (c.toNat - 32) := by simp [Char.toUpper, h]
    have h2 : (Char.ofNat (c.toNat - 32)).toNat = c.toNat - 32 :=
      toNat_ofNat_of_lt _ (by omega)
    have h3 : ¬ ((Char.ofNat (c.toNat - 32)).toNat ≥ 97
        ∧ (Char.ofNat (c.toNat - 32)).toNat ≤ 122) := by
      rw [h2]; omega
    rw [h1]
    simp only [Char.toUpper, h3, if_false]
  · have h1 : c.toUpper = c := by simp only [Char.toUpper, h, if_false]
    rw [h1, h1]

theorem canonicalize_toLower (c : Char) : canonicalize c.toLower = canonicalize c := by
  unfold canonicalize
  by_cases h : c.toNat ≥ 65 ∧ c.toNat ≤ 90
  · have h1 : c.toLower = Char.ofNat (c.toNat + 32) := by simp [Char.toLower, h]
    have h2 : (Char.ofNat (c.toNat + 32)).toNat = c.toNat + 32 :=
      toNat_ofNat_of_lt _ (by omega)
    have h3 : (Char.ofNat (c.toNat + 32)).toNat ≥ 97
        ∧ (Char.ofNat (c.toNat + 32)).toNat ≤ 122 := by
      rw [h2]; omega
    have h4 : ¬ (c.toNat ≥ 97 ∧ c.toNat ≤ 122) := by omega
    have h5 : (Char.ofNat (c.toNat + 32)).toUpper
        = Char.ofNat ((Char.ofNat (c.toNat + 32)).toNat - 32) := by
      simp only [Char.toUpper, h3, and_self, if_true]
    have h6 : c.toUpper = c := by simp only [Char.toUpper, h4, if_false]
    rw [h1, h5, h6, h2, Nat.add_sub_cancel, Char.ofNat_toNat]
  · have h1 : c.toLower = c := by simp only [Char.toLower, h, if_false]
    rw [h1]

theorem matchesAt_map (f : Char → Char) (hf : ∀ c, canonicalize (f c) = canonicalize c)
    (pattern input : List Char) : matchesAt pattern (input.map f) = matchesAt pattern input := by
  induction pattern generalizing input with
  | nil => simp [matchesAt]
  | cons p ps ih =>
    cases input with
    | nil => simp [matchesAt]
    | cons c cs => simp only [List.map_cons, matchesAt, hf, ih]

theorem firstAlternative_map (f : Char → Char) (hf : ∀ c, canonicalize (f c) = canonicalize c)
    (regex : List String) (input : List Char) :
    firstAlternative regex (input.map f) = firstAlternative regex input := by
  induction regex with
  | nil => rfl
  | cons a rest ih => simp only [firstAlternative, matchesAt_map f hf, ih]

theorem length_matchFrom_map (f : Char → Char) (hf : ∀ c, canonicalize (f c) = canonicalize c)
    (regex : List String) (skip : Nat) (input : List Char) :
    (matchFrom regex skip (input.map f)).length = (matchFrom regex skip input).length := by
  induction input generalizing skip with
  | nil => rfl
  | cons c cs ih =>
    cases skip with
    | succ k => simpa only [List.map_cons, matchFrom] using ih k
    | zero =>
      have h := firstAlternative_map f hf regex (c :: cs)
      rw [List.map_cons] at h
      simp only [List.map_cons, matchFrom, h]
      cases firstAlternative regex (c :: cs) with
      | none => simpa using ih 0
      | some n => simpa using ih (n - 1)

theorem matchCount_asciiUpperCase (text : String) (r : Indicator) :
    matchCount (asciiUpperCase text) r = matchCount text r :=
  length_matchFrom_map Char.toUpper canonicalize_toUpper r.regex 0 text.data

theorem matchCount_asciiLowerCase (text : String) (r : Indicator) :
    matchCount (asciiLowerCase text) r = matchCount text r :=
  length_matchFrom_map Char.toLower canonicalize_toLower r.regex 0 text.data

theorem rawScore_congr (text₁ text₂ : String) (sentiment : Sentiment)
    (h : ∀ r, matchCount text₁ r = matchCount text₂ r) :
    rawScore text₁ sentiment = rawScore text₂ sentiment := by
  rw [rawScore_eq, rawScore_eq, weightedMatches_congr text₁ text₂ _ (fun r _ => h r),
    weightedMatches_congr text₁ text₂ _ (fun r _ => h r)]

theorem depression_weights_pos : ∀ r ∈ depressionIndicators, 0 < r.weight := by
  intro r hr
  simp only [depressionIndicators, List.mem_cons, List.mem_singleton] at hr
  simp only [List.not_mem_nil, or_false] at hr
  rcases hr with h | h | h | h | h | h | h | h | h | h <;> subst h <;> norm_num

theorem indicators_disjoint (r : Indicator) (h₁ : r ∈ depressionIndicators)
    (h₂ : r ∈ positiveIndicators) : False :=
  absurd (depression_weights_pos r h₁) (not_lt.2 (positive_weights_nonpos r h₂))

theorem weightedMatches_of_counts (text : String) (rules : List Indicator) (counts : List ℕ)
    (h : rules.map (matchCount text) = counts) :
    weightedMatches text rules
      = (List.zipWith (fun (n : ℕ) (r : Indicator) => (n : ℚ) * r.weight) counts rules).sum := by
  rw [weightedMatches_eq_zipWith, h]

theorem firstAlternative_of_filter_nil (regex : List String) (input : List Char)
    (h : (regex.filter fun a => matchesAt a.data input) = []) :
    firstAlternative regex input = none := by
  induction regex with
  | nil => rfl
  | cons b rest ih =>
    by_cases hb : matchesAt b.data input = true
    · simp [List.filter_cons, hb] at h
    · simp only [List.filter_cons, hb] at h
      simp only [firstAlternative, hb]
      exact ih h

theorem firstAlternative_of_filter_cons (regex : List String) (input : List Char)
    (a : String) (rest' : List String)
    (h : (regex.filter fun a => matchesAt a.data input) = a :: rest') :
    firstAlternative regex input = some a.data.length := by
  induction regex with
  | nil => simp at h
  | cons b rest ih =>
    by_cases hb : matchesAt b.data input = true
    · simp only [List.filter_cons, hb, if_true, List.cons.injEq] at h
      obtain ⟨rfl, _⟩ := h
      simp only [firstAlternative, hb, if_true]
    · simp only [List.filter_cons, hb] at h
      simp only [firstAlternative, hb]
      exact ih h

theorem le_of_mem_occurrencesFrom (regex : List String) (input : List Char) :
    ∀ (pos : Nat), ∀ o ∈ occurrencesFrom regex pos input, pos ≤ o.1 := by
  induction input with
  | nil =>
    intro pos o ho
    simp only [occurrencesFrom, List.mem_map] at ho
    obtain ⟨a, _, rfl⟩ := ho
    exact le_rfl
  | cons c cs ih =>
    intro pos o ho
    simp only [occurrencesFrom, List.mem_append, List.mem_map] at ho
    rcases ho with ⟨a, _, rfl⟩ | ho
    · exact le_rfl
    · exact le_trans (Nat.le_succ pos) (ih (pos + 1) o ho)

theorem length_matchFrom_of_noOverlap (regex : List String)
    (hne : ∀ a ∈ regex, a.data ≠ []) (input : List Char) :
    ∀ (pos skip : Nat), NoOverlap (occurrencesFrom regex pos input) →
      (∀ o ∈ occurrencesFrom regex pos input, pos + skip ≤ o.1) →
      (matchFrom regex skip input).length = (occurrencesFrom regex pos input).length := by
  induction input with
  | nil =>
    intro pos skip _ _
    have hF : (regex.filter fun a => matchesAt a.data []) = [] := by
      rw [List.filter_eq_nil_iff]
      intro a ha
      cases hd : a.data with
      | nil => exact absurd hd (hne a ha)
      | cons p ps => simp [matchesAt]
    cases skip with
    | zero => simp [matchFrom, occurrencesFrom, hF, firstAlternative_of_filter_nil regex [] hF]
    | succ k => simp [matchFrom, occurrencesFrom, hF]
  | cons c cs ih =>
    intro pos skip hp hlow
    unfold NoOverlap at hp
    simp only [occurrencesFrom] at hp hlow ⊢
    rw [List.pairwise_append] at hp
    obtain ⟨hpF, hprest, hcross⟩ := hp
    cases skip with
    | succ k =>
      have hF : (regex.filter fun a => matchesAt a.data (c :: cs)) = [] := by
        rw [List.eq_nil_iff_forall_not_mem]
        intro a ha
        have h1 : pos + (k + 1) ≤ pos :=
          hlow (pos, a) (List.mem_append_left _ (List.mem_map.2 ⟨a, ha, rfl⟩))
        omega
      rw [hF] at hlow ⊢
      simp only [List.map_nil, List.nil_append, matchFrom] at hlow ⊢
      exact ih (pos + 1) k hprest (fun o ho => by have := hlow o ho; omega)
    | zero =>
      cases hF : (regex.filter fun a => matchesAt a.data (c :: cs)) with
      | nil =>
        rw [hF] at hlow
        simp only [List.map_nil, List.nil_append, List.length_nil, matchFrom,
          firstAlternative_of_filter_nil regex (c :: cs) hF] at hlow ⊢
        exact ih (pos + 1) 0 hprest
          (fun o ho => by have := le_of_mem_occurrencesFrom regex cs (pos + 1) o ho; omega)
      | cons a F' =>
        have ha : a ∈ regex := by
          have : a ∈ (regex.filter fun a => matchesAt a.data (c :: cs)) := by
            rw [hF]; exact List.mem_cons_self _ _
          exact (List.mem_filter.1 this).1
        have hlen : 0 < a.data.length := List.length_pos.2 (hne a ha)
        rw [hF] at hpF hcross
        have hF' : F' = [] := by
          cases F' with
          | nil => rfl
          | cons b F'' =>
            simp only [List.map_cons, List.pairwise_cons, List.mem_cons] at hpF
            have h1 : pos + a.data.length ≤ pos := hpF.1 (pos, b) (Or.inl rfl)
            omega
        subst hF'
        simp only [List.map_cons, List.map_nil, List.singleton_append, List.length_cons,
          matchFrom, firstAlternative_of_filter_cons regex (c :: cs) a [] hF]
        congr 1
        refine ih (pos + 1) (a.data.length - 1) hprest (fun o ho => ?_)
        have h1 : pos + a.data.length ≤ o.1 := hcross (pos, a) (by simp) o ho
        omega

theorem lexicon_alternatives_ne_nil :
    ∀ r ∈ depressionIndicators ++ positiveIndicators, ∀ a ∈ r.regex, a.data ≠ [] := by
  decide

/-! ## Properties of the scoring core -/

/-- C1: for every text, every sentiment (any label, any score, also outside `[0,1]`) and
every embedding, the value returned by `calculateDepressionScore` lies in `[0, 25]`. -/
theorem calculateDepressionScore_mem_Icc {E : Type} (text : String) (sentiment : Sentiment)
    (embedding : E) :
    0 ≤ calculateDepressionScore text sentiment embedding
      ∧ calculateDepressionScore text sentiment embedding ≤ 25 :=
  ⟨normalize_nonneg _, normalize_le _⟩

/-- C3: on `[0, 25]` the interpretation is given by the band table: minimal iff
`0 ≤ x < 5`, mild iff `5 ≤ x < 10`, moderate iff `10 ≤ x < 15`, moderately severe iff
`15 ≤ x < 20`, severe iff `20 ≤ x ≤ 25`; the five labels are pairwise distinct, so exactly
one applies; the boundaries 5, 10, 15, 20 fall in the upper band and 25 is severe. -/
theorem getScoreInterpretation_band (x : ℚ) (h0 : 0 ≤ x) (h25 : x ≤ 25) :
    (getScoreInterpretation x = "Minimal or no depression indicators detected"
        ↔ 0 ≤ x ∧ x < 5)
    ∧ (getScoreInterpretation x = "Mild depression indicators detected" ↔ 5 ≤ x ∧ x < 10)
    ∧ (getScoreInterpretation x = "Moderate depression indicators detected"
        ↔ 10 ≤ x ∧ x < 15)
    ∧ (getScoreInterpretation x = "Moderately severe depression indicators detected"
        ↔ 15 ≤ x ∧ x < 20)
    ∧ (getScoreInterpretation x = "Severe depression indicators detected"
        ↔ 20 ≤ x ∧ x ≤ 25)
    ∧ getScoreInterpretation x ∈
        ["Minimal or no depression indicators detected",
         "Mild depression indicators detected",
         "Moderate depression indicators detected",
         "Moderately severe depression indicators detected",
         "Severe depression indicators detected"]
    ∧ ["Minimal or no depression indicators detected",
         "Mild depression indicators detected",
         "Moderate depression indicators detected",
         "Moderately severe depression indicators detected",
         "Severe depression indicators detected"].Nodup
    ∧ getScoreInterpretation 5 = "Mild depression indicators detected"
    ∧ getScoreInterpretation 10 = "Moderate depression indicators detected"
    ∧ getScoreInterpretation 15 = "Moderately severe depression indicators detected"
    ∧ getScoreInterpretation 20 = "Severe depression indicators detected"
    ∧ getScoreInterpretation 25 = "Severe depression indicators detected" := by
  have d12 : ¬ ("Minimal or no depression indicators detected"
      = "Mild depression indicators detected") := by decide
  have d13 : ¬ ("Minimal or no depression indicators detected"
      = "Moderate depression indicators detected") := by decide
  have d14 : ¬ ("Minimal or no depression indicators detected"
      = "Moderately severe depression indicators detected") := by decide
  have d15 : ¬ ("Minimal or no depression indicators detected"
      = "Severe depression indicators detected") := by decide
  have d23 : ¬ ("Mild depression indicators detected"
      = "Moderate depression indicators detected") := by decide
  have d24 : ¬ ("Mild depression indicators detected"
      = "Moderately severe depression indicators detected") := by decide
  have d25 : ¬ ("Mild depression indicators detected"
      = "Severe depression indicators detected") := by decide
  have d34 : ¬ ("Moderate depression indicators detected"
      = "Moderately severe depression indicators detected") := by decide
  have d35 : ¬ ("Moderate depression indicators detected"
      = "Severe depression indicators detected") := by decide
  have d45 : ¬ ("Moderately severe depression indicators detected"
      = "Severe depression indicators detected") := by decide
  have e21 := Ne.symm d12
  have e31 := Ne.symm d13
  have e41 := Ne.symm d14
  have e51 := Ne.symm d15
  have e32 := Ne.symm d23
  have e42 := Ne.symm d24
  have e52 := Ne.symm d25
  have e43 := Ne.symm d34
  have e53 := Ne.symm d35
  have e54 := Ne.symm d45
  refine ⟨?_, ?_, ?_, ?_, ?_, ?_, ?_, ?_, ?_, ?_, ?_, ?_⟩
  · unfold getScoreInterpretation
    split_ifs <;> constructor <;> intro h <;>
      first
        | (exfalso; exact absurd h (by assumption))
        | (constructor <;> linarith)
        | rfl
        | (exfalso; linarith [h.1, h.2])
  · unfold getScoreInterpretation
    split_ifs <;> constructor <;> intro h <;>
      first
        | (exfalso; exact absurd h (by assumption))
        | (constructor <;> linarith)
        | rfl
        | (exfalso; linarith [h.1, h.2])
  · unfold getScoreInterpretation
    split_ifs <;> constructor <;> intro h <;>
      first
        | (exfalso; exact absurd h (by assumption))
        | (constructor <;> linarith)
        | rfl
        | (exfalso; linarith [h.1, h.2])
  · unfold getScoreInterpretation
    split_ifs <;> constructor <;> intro h <;>
      first
        | (exfalso; exact absurd h (by assumption))
        | (constructor <;> linarith)
        | rfl
        | (exfalso; linarith [h.1, h.2])
  · unfold getScoreInterpretation
    split_ifs <;> constructor <;> intro h <;>
      first
        | (exfalso; exact absurd h (by assumption))
        | (constructor <;> linarith)
        | rfl
        | (exfalso; linarith [h.1, h.2])
  · unfold getScoreInterpretation
    split_ifs <;> simp
  · decide
  · norm_num [getScoreInterpretation]
  · norm_num [getScoreInterpretation]
  · norm_num [getScoreInterpretation]
  · norm_num [getScoreInterpretation]
  · norm_num [getScoreInterpretation]

/-- Witness for C3 at the score 7.5. -/
theorem getScoreInterpretation_band_witness :
    ((0 : ℚ) ≤ 7.5 ∧ (7.5 : ℚ) ≤ 25)
      ∧ (getScoreInterpretation 7.5 = "Mild depression indicators detected"
          ↔ (5 : ℚ) ≤ 7.5 ∧ (7.5 : ℚ) < 10) :=
  ⟨⟨by norm_num, by norm_num⟩,
    (getScoreInterpretation_band 7.5 (by norm_num) (by norm_num)).2.1⟩

/-- C5: the rounding-and-clamping expression `N` applied to the raw sum is idempotent,
`N (N x) = N x` for every `x`, and every value returned by `calculateDepressionScore`
is a fixed point of `N`. -/
theorem normalize_idempotent :
    (∀ x : ℚ, normalize x = min (max ((mathRound (10 * x) : ℚ) / 10) 0) 25)
    ∧ (∀ x : ℚ, normalize (normalize x) = normalize x)
    ∧ (∀ (E : Type) (text : String) (sentiment : Sentiment) (embedding : E),
        normalize (calculateDepressionScore text sentiment embedding)
          = calculateDepressionScore text sentiment embedding) := by
  have key : ∀ x : ℚ, normalize (normalize x) = normalize x := by
    intro x
    obtain ⟨m, h0, h1, hm⟩ := normalize_eq_tenth x
    rw [hm, normalize_tenth m h0 h1]
  refine ⟨?_, key, ?_⟩
  · intro x
    unfold normalize
    rw [mul_comm]
  · intro E text sentiment embedding
    exact key _

/-- C8: the score does not depend on the embedding argument. -/
theorem calculateDepressionScore_embedding_irrelevant {E₁ E₂ : Type} (text : String)
    (sentiment : Sentiment) (e₁ : E₁) (e₂ : E₂) :
    calculateDepressionScore text sentiment e₁ = calculateDepressionScore text sentiment e₂ :=
  rfl

/-- C4: if two texts have the same match count on every lexicon rule except one rule, on
which the second text has the larger count, then for every sentiment the raw sum and the
returned score of the second text are at least those of the first when the rule is a
negative indicator, and at most those of the first when it is a positive indicator. -/
theorem score_monotone_in_match_count {E : Type} (text₁ text₂ : String) (sentiment : Sentiment)
    (embedding : E) (rule : Indicator)
    (hsame : ∀ r ∈ depressionIndicators ++ positiveIndicators, r ≠ rule →
      matchCount text₁ r = matchCount text₂ r)
    (hmore : matchCount text₁ rule < matchCount text₂ rule) :
    (rule ∈ depressionIndicators →
      rawScore text₁ sentiment ≤ rawScore text₂ sentiment
        ∧ calculateDepressionScore text₁ sentiment embedding
            ≤ calculateDepressionScore text₂ sentiment embedding)
    ∧ (rule ∈ positiveIndicators →
      rawScore text₂ sentiment ≤ rawScore text₁ sentiment
        ∧ calculateDepressionScore text₂ sentiment embedding
            ≤ calculateDepressionScore text₁ sentiment embedding) := by
  have hle : ∀ r ∈ depressionIndicators ++ positiveIndicators,
      matchCount text₁ r ≤ matchCount text₂ r := by
    intro r hr
    by_cases hne : r = rule
    · rw [hne]; exact le_of_lt hmore
    · exact le_of_eq (hsame r hr hne)
  constructor
  · intro hmem
    have hraw : rawScore text₁ sentiment ≤ rawScore text₂ sentiment := by
      rw [rawScore_eq, rawScore_eq]
      have hpos := weightedMatches_congr text₁ text₂ positiveIndicators (fun r hr =>
        hsame r (List.mem_append_right _ hr)
          (fun hne => indicators_disjoint r (hne ▸ hmem) hr))
      have hneg := weightedMatches_le_of_nonneg text₁ text₂ depressionIndicators
        depression_weights_nonneg (fun r hr => hle r (List.mem_append_left _ hr))
      rw [hpos]
      linarith
    exact ⟨hraw, normalize_mono hraw⟩
  · intro hmem
    have hraw : rawScore text₂ sentiment ≤ rawScore text₁ sentiment := by
      rw [rawScore_eq, rawScore_eq]
      have hneg := weightedMatches_congr text₁ text₂ depressionIndicators (fun r hr =>
        hsame r (List.mem_append_left _ hr)
          (fun hne => indicators_disjoint r hr (hne ▸ hmem)))
      have hpos := weightedMatches_ge_of_nonpos text₁ text₂ positiveIndicators
        positive_weights_nonpos (fun r hr => hle r (List.mem_append_right _ hr))
      rw [hneg]
      linarith
    exact ⟨hraw, normalize_mono hraw⟩

/-- Witness for C4: the texts `""` and `"sad"` differ only on the low-mood rule, the texts
`""` and `"joy"` only on the happiness rule. -/
theorem score_monotone_in_match_count_witness :
    (rawScore "" ⟨"NEGATIVE", 1 / 2⟩ ≤ rawScore "sad" ⟨"NEGATIVE", 1 / 2⟩
      ∧ calculateDepressionScore "" ⟨"NEGATIVE", 1 / 2⟩ ()
          ≤ calculateDepressionScore "sad" ⟨"NEGATIVE", 1 / 2⟩ ())
    ∧ (rawScore "joy" ⟨"NEGATIVE", 1 / 2⟩ ≤ rawScore "" ⟨"NEGATIVE", 1 / 2⟩
      ∧ calculateDepressionScore "joy" ⟨"NEGATIVE", 1 / 2⟩ ()
          ≤ calculateDepressionScore "" ⟨"NEGATIVE", 1 / 2⟩ ()) :=
  ⟨(score_monotone_in_match_count "" "sad" ⟨"NEGATIVE", 1 / 2⟩ ()
    { regex := ["sad", "down", "low", "blue", "unhappy"], weight := 0.8 }
    (by
      intro r hr hne
      simp only [depressionIndicators, positiveIndicators, List.cons_append, List.nil_append,
        List.mem_cons, List.mem_singleton] at hr
      simp only [List.not_mem_nil, or_false] at hr
      rcases hr with h | h | h | h | h | h | h | h | h | h | h | h | h | h | h <;> subst h <;>
        first
          | exact absurd rfl hne
          | decide)
    (by decide)).1
    (by simp [depressionIndicators]),
   (score_monotone_in_match_count "" "joy" ⟨"NEGATIVE", 1 / 2⟩ ()
    { regex := ["happy", "joy", "grateful", "thankful"], weight := -1.0 }
    (by
      intro r hr hne
      simp only [depressionIndicators, positiveIndicators, List.cons_append, List.nil_append,
        List.mem_cons, List.mem_singleton] at hr
      simp only [List.not_mem_nil, or_false] at hr
      rcases hr with h | h | h | h | h | h | h | h | h | h | h | h | h | h | h <;> subst h <;>
        first
          | exact absurd rfl hne
          | decide)
    (by decide)).2
    (by simp [positiveIndicators])⟩

/-- C6, as stated, fails: in `"sadown"` two alternatives of the low-mood rule occur, `sad` at
position 0 and `down` at position 2, but they overlap and the rule matches once, so not
every occurrence of an alternative is a match of its own. -/
theorem overlapping_occurrences_match_once :
    occurrences "sadown" ["sad", "down", "low", "blue", "unhappy"] = [(0, "sad"), (2, "down")]
    ∧ textMatch "sadown" ["sad", "down", "low", "blue", "unhappy"] = ["sad"]
    ∧ ¬ (∀ (text : String), ∀ r ∈ depressionIndicators ++ positiveIndicators,
          matchCount text r = (occurrences text r.regex).length) := by
  refine ⟨by decide, by decide, fun h => ?_⟩
  have h1 := h "sadown" { regex := ["sad", "down", "low", "blue", "unhappy"], weight := 0.8 }
    (by simp [depressionIndicators])
  revert h1
  decide

/-- C6, amended: every occurrence of an alternative of a lexicon rule is a match of its own
provided no two occurrences of the alternatives of that rule overlap in the text: the
number of matches is then the number of occurrences.  In `"I feel hopeless and worthless"`
the alternatives of the hopelessness rule occur exactly twice (`hopeless` at position 7,
`worthless` at position 20), without overlap, the rule matches exactly twice and no other
rule matches; with the label `NEGATIVE` and score 0.9 the raw sum is
`12.5 + 4.5 + 3.0 = 20`, the returned score is 20 and its interpretation is severe. -/
theorem separate_occurrences_each_match :
    (∀ (text : String), ∀ r ∈ depressionIndicators ++ positiveIndicators,
      NoOverlap (occurrences text r.regex) →
        matchCount text r = (occurrences text r.regex).length)
    ∧ occurrences "I feel hopeless and worthless"
        ["hopeless", "worthless", "emptiness", "despair"]
      = [(7, "hopeless"), (20, "worthless")]
    ∧ textMatch "I feel hopeless and worthless" ["hopeless", "worthless", "emptiness", "despair"]
      = ["hopeless", "worthless"]
    ∧ depressionIndicators.map (matchCount "I feel hopeless and worthless")
      = [2, 0, 0, 0, 0, 0, 0, 0, 0, 0]
    ∧ positiveIndicators.map (matchCount "I feel hopeless and worthless") = [0, 0, 0, 0, 0]
    ∧ rawScore "I feel hopeless and worthless" ⟨"NEGATIVE", 0.9⟩ = 12.5 + 4.5 + 3.0
    ∧ rawScore "I feel hopeless and worthless" ⟨"NEGATIVE", 0.9⟩ = 20.0
    ∧ calculateDepressionScore "I feel hopeless and worthless" ⟨"NEGATIVE", 0.9⟩ () = 20.0
    ∧ getScoreInterpretation
        (calculateDepressionScore "I feel hopeless and worthless" ⟨"NEGATIVE", 0.9⟩ ())
      = "Severe depression indicators detected" := by
  have hneg : depressionIndicators.map (matchCount "I feel hopeless and worthless")
      = [2, 0, 0, 0, 0, 0, 0, 0, 0, 0] := by decide
  have hpos : positiveIndicators.map (matchCount "I feel hopeless and worthless")
      = [0, 0, 0, 0, 0] := by decide
  have hraw : rawScore "I feel hopeless and worthless" ⟨"NEGATIVE", 0.9⟩ = 20 := by
    rw [rawScore_eq, weightedMatches_of_counts _ _ _ hneg, weightedMatches_of_counts _ _ _ hpos]
    simp only [sentimentTerm, if_true, depressionIndicators, positiveIndicators,
      List.zipWith_cons_cons, List.zipWith_nil_right, List.sum_cons, List.sum_nil]
    norm_num
  have hval : calculateDepressionScore "I feel hopeless and worthless" ⟨"NEGATIVE", 0.9⟩ ()
      = 20 := by
    unfold calculateDepressionScore
    rw [hraw, show (20 : ℚ) = ((200 : ℤ) : ℚ) / 10 by norm_num,
      normalize_tenth 200 (by norm_num) (by norm_num)]
  refine ⟨?_, by decide, by decide, hneg, hpos, ?_, ?_, ?_, ?_⟩
  · intro text r hr hno
    exact length_matchFrom_of_noOverlap r.regex (lexicon_alternatives_ne_nil r hr) text.data 0 0
      hno (fun o _ => by omega)
  · rw [hraw]; norm_num
  · rw [hraw]; norm_num
  · rw [hval]; norm_num
  · rw [hval]; norm_num [getScoreInterpretation]

/-- Witness for C6: the two occurrences in the scenario text do not overlap, and the
hopelessness rule matches twice. -/
theorem separate_occurrences_each_match_witness :
    NoOverlap (occurrences "I feel hopeless and worthless"
        ["hopeless", "worthless", "emptiness", "despair"])
      ∧ matchCount "I feel hopeless and worthless"
          { regex := ["hopeless", "worthless", "emptiness", "despair"], weight := 1.5 }
        = (occurrences "I feel hopeless and worthless"
            ["hopeless", "worthless", "emptiness", "despair"]).length :=
  ⟨by unfold NoOverlap; decide,
    separate_occurrences_each_match.1 "I feel hopeless and worthless"
      { regex := ["hopeless", "worthless", "emptiness", "despair"], weight := 1.5 }
      (by simp [depressionIndicators]) (by unfold NoOverlap; decide)⟩

/-- C9: matching is case-insensitive: for an ASCII text, the text itself, its upper-cased
form and its lower-cased form have the same match count on every lexicon rule and the same
score, for every sentiment.  (ASCII is where `asciiUpperCase` and `asciiLowerCase` agree
with `toUpperCase` and `toLowerCase`; the proof itself does not need it.) -/
theorem calculateDepressionScore_case_insensitive {E : Type} (text : String)
    (sentiment : Sentiment) (embedding : E) (_hascii : IsAscii text) :
    calculateDepressionScore (asciiUpperCase text) sentiment embedding
        = calculateDepressionScore text sentiment embedding
    ∧ calculateDepressionScore (asciiLowerCase text) sentiment embedding
        = calculateDepressionScore text sentiment embedding
    ∧ ∀ r ∈ depressionIndicators ++ positiveIndicators,
        matchCount (asciiUpperCase text) r = matchCount text r
        ∧ matchCount (asciiLowerCase text) r = matchCount text r := by
  refine ⟨?_, ?_, fun r _ => ⟨matchCount_asciiUpperCase text r, matchCount_asciiLowerCase text r⟩⟩
  · unfold calculateDepressionScore
    rw [rawScore_congr _ _ _ (matchCount_asciiUpperCase text)]
  · unfold calculateDepressionScore
    rw [rawScore_congr _ _ _ (matchCount_asciiLowerCase text)]

/-- Witness for C9: the mixed-case text `"So SAD, yet Happy"` and its two case foldings. -/
theorem calculateDepressionScore_case_insensitive_witness :
    IsAscii "So SAD, yet Happy"
      ∧ asciiUpperCase "So SAD, yet Happy" = "SO SAD, YET HAPPY"
      ∧ asciiLowerCase "So SAD, yet Happy" = "so sad, yet happy"
      ∧ calculateDepressionScore (asciiUpperCase "So SAD, yet Happy") ⟨"NEGATIVE", 1 / 2⟩ ()
          = calculateDepressionScore "So SAD, yet Happy" ⟨"NEGATIVE", 1 / 2⟩ ()
      ∧ calculateDepressionScore (asciiLowerCase "So SAD, yet Happy") ⟨"NEGATIVE", 1 / 2⟩ ()
          = calculateDepressionScore "So SAD, yet Happy" ⟨"NEGATIVE", 1 / 2⟩ () :=
  ⟨by unfold IsAscii; decide, by decide, by decide,
    (calculateDepressionScore_case_insensitive "So SAD, yet Happy" ⟨"NEGATIVE", 1 / 2⟩ ()
      (by unfold IsAscii; decide)).1,
    (calculateDepressionScore_case_insensitive "So SAD, yet Happy" ⟨"NEGATIVE", 1 / 2⟩ ()
      (by unfold IsAscii; decide)).2.1⟩

end Worker
